import Mathlib

/-!
Verification of the `TrackZone` solution (`ultralytics/solutions/trackzone.py`).

The development shallowly embeds the `TrackZone` class: its constructor
(`TrackZone.__init__`) and its per-frame processing method
(`TrackZone.trackzone`).  Images are modelled as total pixel functions
carrying their dimensions; the in-place pixel mutations performed by the
OpenCV drawing primitives are modelled functionally, and the aliasing
`plot_im = im0` of the source is accounted for explicitly (the content of
the caller's buffer after a call is the final plot image).  External
collaborators that are not part of the visible source (OpenCV primitives,
the `BaseSolution` track extractor) are modelled from the spec where noted.
-/

/-- Integer pixel coordinate, as used by the region polygon (`np.int32` points). -/
structure Pt where
  x : Int
  y : Int
deriving DecidableEq, Repr

/-- Image modelled as dimensions plus a total pixel function
`data y x c` (row, column, channel), each value a byte 0..255. -/
structure Img where
  height : Nat
  width : Nat
  channels : Nat
  data : Nat → Nat → Nat → Nat

/-- Single-channel grid, the shape produced by `np.zeros_like(plot_im[:, :, 0])`. -/
structure Gray where
  height : Nat
  width : Nat
  data : Nat → Nat → Nat

/-- Cross product `(a - o) × (b - o)`, the orientation test used by the hull
and segment computations. -/
def cross2 (o a b : Pt) : Int :=
  (a.x - o.x) * (b.y - o.y) - (a.y - o.y) * (b.x - o.x)

/-- Lexicographic comparison on points (x first, then y). -/
def ptLe (a b : Pt) : Bool :=
  decide (a.x < b.x) || (decide (a.x = b.x) && decide (a.y ≤ b.y))

/-- Insertion into a `ptLe`-sorted list. -/
def insertSorted (p : Pt) : List Pt → List Pt
  | [] => [p]
  | q :: qs => if ptLe p q then p :: q :: qs else q :: insertSorted p qs

/-- Insertion sort of points in `ptLe` order. -/
def sortPts (l : List Pt) : List Pt := l.foldr insertSorted []

/-- Single step of the monotone-chain hull scan: pop while the new point does
not make a strict left turn with the top two points of the chain. -/
def chainStep (p : Pt) : List Pt → List Pt
  | a :: b :: rest => if cross2 b a p ≤ 0 then chainStep p (b :: rest) else p :: a :: b :: rest
  | acc => p :: acc

/-- Half (lower or upper) hull of an ordered point list, returned reversed. -/
def halfHull (pts : List Pt) : List Pt := pts.foldl (fun acc p => chainStep p acc) []

/-- Modelled from the spec: `cv2.convexHull` (an external OpenCV primitive, not
part of the visible source) "computes the convex hull of the input points",
handling collinear/degenerate input; modelled by Andrew's monotone chain over
the distinct points, returning the input's distinct points unchanged when
fewer than three remain. -/
def cv2.convexHull (pts : List Pt) : List Pt :=
  let ps := sortPts pts.dedup
  if ps.length ≤ 2 then ps
  else
    let lower := (halfHull ps).reverse
    let upper := (halfHull ps.reverse).reverse
    lower.dropLast ++ upper.dropLast

/-- Closed edge list of a polygon: each vertex paired with its cyclic successor. -/
def edgesOf (poly : List Pt) : List (Pt × Pt) :=
  poly.zip (poly.drop 1 ++ poly.take 1)

/-- Upward-crossing test of the horizontal ray from `p` against edge `(a, b)`,
written with cross-multiplied integer comparisons (no division). -/
def edgeCrosses (p a b : Pt) : Bool :=
  (decide (a.y ≤ p.y) && decide (p.y < b.y) &&
    decide ((p.x - a.x) * (b.y - a.y) < (b.x - a.x) * (p.y - a.y)))
  || (decide (b.y ≤ p.y) && decide (p.y < a.y) &&
    decide ((p.x - a.x) * (b.y - a.y) > (b.x - a.x) * (p.y - a.y)))

/-- Even–odd point-in-polygon test (crossing number parity). -/
def insidePoly (poly : List Pt) (p : Pt) : Bool :=
  ((edgesOf poly).countP (fun e => edgeCrosses p e.1 e.2)) % 2 == 1

/-- Model of `np.zeros_like(im[:, :, 0])`: an all-zero single-channel grid
with the image's height and width. -/
def zerosLike (im : Img) : Gray :=
  { height := im.height, width := im.width, data := fun _ _ => 0 }

/-- Modelled from the spec: `cv2.fillPoly` (external OpenCV primitive) "fills
the polygon interior (region) with the keep value" on the given grid; interior
membership is the even–odd test `insidePoly`. -/
def cv2.fillPoly (m : Gray) (poly : List Pt) (v : Nat) : Gray :=
  { m with data := fun y x => if insidePoly poly ⟨(x : Int), (y : Int)⟩ then v else m.data y x }

/-- Modelled from the spec: `cv2.bitwise_and(src1, src2, mask)` (external
OpenCV primitive) produces "an output frame identical to the input everywhere
the mask is set and zeroed elsewhere (per-channel)": per-pixel bitwise and of
the sources where the mask is nonzero, zero elsewhere. -/
def cv2.bitwiseAnd (src1 src2 : Img) (m : Gray) : Img :=
  { src1 with
    data := fun y x c =>
      if m.data y x ≠ 0 then Nat.land (src1.data y x c) (src2.data y x c) else 0 }

/-- Membership of `p` on the closed segment from `a` to `b` (collinear and
within the bounding box). -/
def onSegment (a b p : Pt) : Bool :=
  decide (cross2 a b p = 0) && decide (min a.x b.x ≤ p.x) && decide (p.x ≤ max a.x b.x)
    && decide (min a.y b.y ≤ p.y) && decide (p.y ≤ max a.y b.y)

/-- Membership of `p` on the closed outline of the polygon. -/
def onOutline (poly : List Pt) (p : Pt) : Bool :=
  (edgesOf poly).any (fun e => onSegment e.1 e.2 p)

/-- Modelled from the spec: `cv2.polylines(img, [poly], isClosed=True, color,
thickness)` (external OpenCV primitive) is the consumed "polygon outline draw"
whose "side effect [is] confined to the target image"; modelled as setting
every pixel on the closed outline's segments to the colour value (the spec
fixes no rasterisation, so thickness is collapsed to the one-pixel outline,
a subset of any positive-thickness rendering).  The in-place mutation of the
source is modelled by returning the updated image. -/
def cv2.polylines (img : Img) (poly : List Pt) (v : Nat) : Img :=
  { img with
    data := fun y x c =>
      if onOutline poly ⟨(x : Int), (y : Int)⟩ then v else img.data y x c }

/-- Axis-aligned bounding box of one detection (x1, y1, x2, y2). -/
structure Box where
  x1 : Int
  y1 : Int
  x2 : Int
  y2 : Int
deriving DecidableEq, Repr

/-- Modelled from the spec: the palette lookup `colors(track_id, True)`
(external) — "box color is a deterministic function of the track id". -/
def trackColor (id : Int) : Nat := id.natAbs % 256

/-- Modelled from the spec: `SolutionAnnotator.box_label` (repository code not
under `src/`) is the consumed "box+label draw" primitive whose "side effect
[is] confined to the target image"; modelled as marking the box's top-left
pixel with the colour (a subset of any faithful rendering), the in-place
mutation again modelled by returning the updated image. -/
def boxLabelDraw (img : Img) (b : Box) (v : Nat) : Img :=
  { img with
    data := fun y x c =>
      if decide ((x : Int) = b.x1) && decide ((y : Int) = b.y1) then v else img.data y x c }

/-- One tracked object of one frame: bounding box, persistent track id,
class index — the triple produced per object by the track extractor. -/
structure Detection where
  box : Box
  track_id : Int
  cls : Nat
deriving DecidableEq, Repr

/-- Modelled from the spec: the external Track Extractor capability,
`extract(frame) -> sequence of Detection`, which may also fail ("it
raises/returns an error").  `BaseSolution.extract_tracks` (repository code not
under `src/`) invokes it and stores the boxes, track ids and class indices on
the solution object. -/
def Extractor : Type := Img → Except Unit (List Detection)

/-- Mutable state of a `TrackZone` object across calls: the region polygon
set by `__init__`, the configured line width and verbosity, and the
`boxes` / `track_ids` / `clss` fields written by `extract_tracks`. -/
structure TZState where
  region : List Pt
  line_width : Nat
  verbose : Bool
  boxes : List Box
  track_ids : List Int
  clss : List Nat

/-- Default region of `TrackZone.__init__`:
`[(150, 150), (1130, 150), (1130, 570), (150, 570)]`. -/
def defaultRegion : List Pt := [⟨150, 150⟩, ⟨1130, 150⟩, ⟨1130, 570⟩, ⟨150, 570⟩]

/-- Python's `self.region or default_region`: the default replaces both an
absent (`None`) region and an empty (falsy) point sequence. -/
def regionOrDefault : Option (List Pt) → List Pt
  | none => defaultRegion
  | some [] => defaultRegion
  | some (p :: ps) => p :: ps

/-- Embedding of `TrackZone.__init__`: the configuration (region option,
line width, verbosity) is absorbed by `BaseSolution.__init__` (modelled from
the spec's configuration surface), then
`self.region = cv2.convexHull(np.array(self.region or default_region))`.
No validation is performed; the track fields start empty on a fresh object. -/
def tzInit (regionArg : Option (List Pt)) (lw : Nat) (vb : Bool) : TZState :=
  { region := cv2.convexHull (regionOrDefault regionArg)
    line_width := lw
    verbose := vb
    boxes := []
    track_ids := []
    clss := [] }

/-- Region mask of one frame, as built inline in `trackzone`:
`cv2.fillPoly(np.zeros_like(plot_im[:, :, 0]), [self.region], 255)`. -/
def maskOf (region : List Pt) (im : Img) : Gray :=
  cv2.fillPoly (zerosLike im) region 255

/-- Masked frame of `trackzone`:
`cv2.bitwise_and(plot_im, plot_im, mask=...)`. -/
def maskedOf (region : List Pt) (im : Img) : Img :=
  cv2.bitwiseAnd im im (maskOf region im)

/-- Per-call result: the dictionary produced by
`SolutionResults(plot_im=plot_im, total_tracks=len(self.track_ids)).summary(...)`
(`SolutionResults` is repository code not under `src/`, modelled from the
spec's Frame Result: the annotated frame plus the track count). -/
structure TZResult where
  plot_im : Img
  total_tracks : Nat

/-- Embedding of `TrackZone.trackzone(im0)`.  `plot_im = im0` is an alias of
the caller's array; the masked frame is built from fresh buffers; the
extractor runs on the masked frame (a raised error propagates, skipping the
rest of the body); the region outline and one label per detection are drawn
on `plot_im`; the result carries `total_tracks = len(self.track_ids)`.
The returned state records the fields `extract_tracks` wrote.  This
definition is the success branch (extractor returned `dets`); `trackzone`
below adds the error propagation. -/
def trackzoneOk (st : TZState) (plot0 : Img) (dets : List Detection) :
    TZResult × TZState :=
  let st1 : TZState :=
    { st with
      boxes := dets.map (fun d => d.box)
      track_ids := dets.map (fun d => d.track_id)
      clss := dets.map (fun d => d.cls) }
  let plot1 := cv2.polylines plot0 st1.region 255
  let plot2 := (st1.boxes.zip (st1.track_ids.zip st1.clss)).foldl
      (fun img t => boxLabelDraw img t.1 (trackColor t.2.1)) plot1
  ({ plot_im := plot2, total_tracks := st1.track_ids.length }, st1)

/-- Error propagation of `trackzone`: a raised extractor error skips the rest
of the body (`Except.map` is exactly the source's implicit
raise-or-continue on the `self.extract_tracks(masked_frame)` line). -/
def trackzone (E : Extractor) (st : TZState) (im0 : Img) :
    Except Unit (TZResult × TZState) :=
  (E (maskedOf st.region im0)).map (trackzoneOk st im0)

/-- Content of the caller's `im0` buffer once `trackzone` returns: in the
source `plot_im = im0` aliases the caller's array and every draw mutates it
in place, so on success the buffer holds the returned plot image; when the
extractor raises, no drawing has happened yet and the buffer is untouched. -/
def callerFrameAfter (E : Extractor) (st : TZState) (im0 : Img) : Img :=
  match trackzone E st im0 with
  | .ok (r, _) => r.plot_im
  | .error _ => im0

/-- One call on a live Python object: on success the object carries the new
state; when `trackzone` raises, the exception propagates and the object keeps
its previous field values. -/
def stepTZ (E : Extractor) (st : TZState) (im : Img) :
    TZState × Except Unit TZResult :=
  match trackzone E st im with
  | .ok (r, st1) => (st1, .ok r)
  | .error e => (st, .error e)

/-- Driving a frame sequence through one controller, collecting the per-call
outcomes. -/
def runSeq (E : Extractor) (st : TZState) : List Img → TZState × List (Except Unit TZResult)
  | [] => (st, [])
  | f :: fs =>
    let s1 := stepTZ E st f
    let rest := runSeq E s1.1 fs
    (rest.1, s1.2 :: rest.2)

/-- Projection of a call outcome to its `total_tracks` count (`none` on a
raised error), comparable on concrete runs. -/
def totalOf : Except Unit TZResult → Option Nat
  | .ok r => some r.total_tracks
  | .error _ => none

/-- Frame of constant pixel value (concrete test frames). -/
def constImg (h w ch v : Nat) : Img :=
  { height := h, width := w, channels := ch, data := fun _ _ _ => v }

/-- Concrete 1280×720 3-channel frames of the scenario, distinguishable by
their pixel value at an interior point of the default region. -/
def frameA : Img := constImg 720 1280 3 1

/-- Second concrete frame, pixel value 2. -/
def frameB : Img := constImg 720 1280 3 2

/-- Bounding box `(200, 200, 260, 260)` of the spec's concrete scenario. -/
def oneBox : Box := ⟨200, 200, 260, 260⟩

/-- Deterministic extractor: one detection with track id 7 when the masked
frame carries value 1 at interior pixel (200, 200), no detection otherwise. -/
def extrSeven : Extractor :=
  fun f => .ok (if f.data 200 200 0 == 1 then [⟨oneBox, 7, 0⟩] else [])

/-- Deterministic extractor: track id 7 when the masked frame carries value 1
at interior pixel (200, 200), track id 8 otherwise. -/
def extrSevenEight : Extractor :=
  fun f => .ok [⟨oneBox, (if f.data 200 200 0 == 1 then 7 else 8), 0⟩]

/-- Extractor reporting no detection on any frame. -/
def extrNone : Extractor := fun _ => .ok []

/-- Extractor that always raises. -/
def extrFail : Extractor := fun _ => .error ()

/-- Degenerate two-point region input. -/
def twoPtRegion : List Pt := [⟨0, 0⟩, ⟨1, 1⟩]

/-- Bitwise and of a byte with itself is itself. -/
theorem land_self_eq (n : Nat) : Nat.land n n = n := by
  show n &&& n = n
  exact Nat.eq_of_testBit_eq (by simp)

/-- One `trackzone` call never changes the `region` field of the state. -/
theorem trackzone_region (E : Extractor) (st : TZState) (im : Img)
    (r : TZResult) (st1 : TZState) (h : trackzone E st im = .ok (r, st1)) :
    st1.region = st.region := by
  unfold trackzone at h
  cases hE : E (maskedOf st.region im) with
  | error e => rw [hE] at h; exact Except.noConfusion h
  | ok dets =>
    rw [hE] at h
    simp only [Except.map, Except.ok.injEq] at h
    have h2 : st1 = (trackzoneOk st im dets).2 := by rw [h]
    rw [h2]
    rfl

/-- One live-object step never changes the `region` field. -/
theorem stepTZ_region (E : Extractor) (st : TZState) (im : Img) :
    (stepTZ E st im).1.region = st.region := by
  unfold stepTZ
  cases h : trackzone E st im with
  | error e => rfl
  | ok p => exact trackzone_region E st im p.1 p.2 h

/-- Driving any frame sequence never changes the `region` field. -/
theorem runSeq_region (E : Extractor) (st : TZState) (frames : List Img) :
    (runSeq E st frames).1.region = st.region := by
  induction frames generalizing st with
  | nil => rfl
  | cons f fs ih =>
    show (runSeq E (stepTZ E st f).1 fs).1.region = st.region
    rw [ih, stepTZ_region]

/-- Success-branch result count: `total_tracks = len(self.track_ids)` with
`track_ids` freshly written from the extracted detections. -/
theorem trackzoneOk_total (st : TZState) (im : Img) (dets : List Detection) :
    (trackzoneOk st im dets).1.total_tracks = dets.length := by
  simp [trackzoneOk]

/-- Success-branch state: `track_ids` holds exactly the ids of the current
frame's detections. -/
theorem trackzoneOk_track_ids (st : TZState) (im : Img) (dets : List Detection) :
    (trackzoneOk st im dets).2.track_ids = dets.map (fun d => d.track_id) := rfl

/-- Success-branch plot image, unfolded: outline drawing followed by one
label per detection. -/
theorem trackzoneOk_plot (st : TZState) (im : Img) (dets : List Detection) :
    (trackzoneOk st im dets).1.plot_im =
      ((dets.map (fun d => d.box)).zip
          ((dets.map (fun d => d.track_id)).zip (dets.map (fun d => d.cls)))).foldl
        (fun img t => boxLabelDraw img t.1 (trackColor t.2.1))
        (cv2.polylines im st.region 255) := rfl

/-- Label drawing leaves every pixel that is not the top-left corner of one
of the drawn boxes unchanged. -/
theorem foldl_boxLabel_preserve (l : List (Box × Int × Nat)) (img : Img) (y x c : Nat)
    (h : ∀ t ∈ l, ¬((x : Int) = t.1.x1 ∧ (y : Int) = t.1.y1)) :
    (l.foldl (fun img t => boxLabelDraw img t.1 (trackColor t.2.1)) img).data y x c
      = img.data y x c := by
  induction l generalizing img with
  | nil => rfl
  | cons t ts ih =>
    have ht := h t (List.mem_cons_self t ts)
    have hrest : ∀ u ∈ ts, ¬((x : Int) = u.1.x1 ∧ (y : Int) = u.1.y1) :=
      fun u hu => h u (List.mem_cons_of_mem t hu)
    rw [List.foldl_cons, ih _ hrest]
    simp only [boxLabelDraw]
    rcases Decidable.em ((x : Int) = t.1.x1) with hx | hx
    · rcases Decidable.em ((y : Int) = t.1.y1) with hy | hy
      · exact absurd ⟨hx, hy⟩ ht
      · simp [hy]
    · simp [hx]

/-- C3: for every frame and region, the mask is a single-channel grid of the
frame's height and width holding 255 inside the region polygon and 0 outside,
and the masked frame agrees with the input frame per channel inside the
polygon and is zero outside it. -/
theorem C3_masking_correct (im : Img) (region : List Pt) :
    (maskOf region im).height = im.height ∧ (maskOf region im).width = im.width ∧
    (∀ y x : Nat, (maskOf region im).data y x =
      if insidePoly region ⟨(x : Int), (y : Int)⟩ then 255 else 0) ∧
    (maskedOf region im).height = im.height ∧ (maskedOf region im).width = im.width ∧
    (maskedOf region im).channels = im.channels ∧
    (∀ y x c : Nat, (maskedOf region im).data y x c =
      if insidePoly region ⟨(x : Int), (y : Int)⟩ then im.data y x c else 0) := by
  refine ⟨rfl, rfl, fun y x => rfl, rfl, rfl, rfl, fun y x c => ?_⟩
  simp only [maskedOf, cv2.bitwiseAnd, maskOf, cv2.fillPoly, zerosLike]
  rcases Decidable.em (insidePoly region ⟨(x : Int), (y : Int)⟩ = true) with hin | hin
  · simp [hin, land_self_eq]
  · simp [hin]

/-- Outcome of one live-object step projected to its count: the per-frame
length of the extracted detection list (or `none` when the extractor raised). -/
theorem stepTZ_total (E : Extractor) (st : TZState) (im : Img) :
    totalOf (stepTZ E st im).2 = (E (maskedOf st.region im)).toOption.map List.length := by
  unfold stepTZ trackzone
  cases hE : E (maskedOf st.region im) with
  | error e => rfl
  | ok dets => simp [Except.map, totalOf, Except.toOption, trackzoneOk_total]

/-- C1 (counterexample): on a fresh controller, a first frame whose masked
image makes the extractor report track id 7 yields `total_tracks = 1`, and a
second frame with no detection yields `total_tracks = 0`: the sequence of
counts decreases, so it is neither non-decreasing nor equal to the number of
distinct ids seen so far (which is 1 after the second call). -/
theorem C1_counterexample :
    ((runSeq extrSeven (tzInit none 2 false) [frameA, frameB]).2.map totalOf
      = [some 1, some 0])
    ∧ ¬ List.Sorted (· ≤ ·)
        ((runSeq extrSeven (tzInit none 2 false) [frameA, frameB]).2.filterMap totalOf) := by
  decide

/-- C1 (amended): `total_tracks` is the per-frame count, not a cumulative one:
for any extractor, starting state and frame sequence, the k-th call's count
equals the number of detections the extractor returns for the k-th masked
frame alone (and is `none` exactly when the extractor raised); in particular
repeating one detection across N frames reports 1 on each call rather than
accumulating. -/
theorem C1_amended_per_frame_totals (E : Extractor) (st : TZState) (frames : List Img) :
    (runSeq E st frames).2.map totalOf
      = frames.map (fun im => (E (maskedOf st.region im)).toOption.map List.length) := by
  induction frames generalizing st with
  | nil => rfl
  | cons f fs ih =>
    show totalOf (stepTZ E st f).2 :: (runSeq E (stepTZ E st f).1 fs).2.map totalOf = _
    rw [List.map_cons, stepTZ_total, ih, stepTZ_region]

/-- C2 (counterexample): in the concrete scenario (default region, 1280×720
frames, the extractor reporting id 7 on the first two frames and the new id 8
on the third), the three calls return counts 1, 1, 1 — not 1, 1, 2 as the
claim expects for the third call. -/
theorem C2_counterexample :
    ((runSeq extrSevenEight (tzInit none 2 false) [frameA, frameA, frameB]).2.map totalOf
      = [some 1, some 1, some 1])
    ∧ ((runSeq extrSevenEight (tzInit none 2 false) [frameA, frameA, frameB]).2.map totalOf
      ≠ [some 1, some 1, some 2]) := by
  decide

/-- C2 (amended): in the concrete scenario, the first call (id 7) returns
`total_tracks = 1`, the second call (same id 7) returns 1, and the third call
(new id 8) also returns 1: the count is the per-frame number of detections,
not the size of a cumulative id set. -/
theorem C2_amended_scenario :
    (runSeq extrSevenEight (tzInit none 2 false) [frameA, frameA, frameB]).2.map totalOf
      = [some 1, some 1, some 1] := by
  decide

/-- C9: each call's `total_tracks` equals the length of the id list the
extractor produced for that frame alone; it is independent of the controller's
history (any two states with the same region give the same count), and it can
decrease between consecutive calls (concretely from 1 to 0). -/
theorem C9_per_frame_count (E : Extractor) (st st2 : TZState) (im : Img)
    (h : st2.region = st.region) :
    (trackzone E st im).map (fun p => p.1.total_tracks)
      = (E (maskedOf st.region im)).map List.length
    ∧ (trackzone E st2 im).map (fun p => p.1.total_tracks)
      = (trackzone E st im).map (fun p => p.1.total_tracks)
    ∧ (runSeq extrSeven (tzInit none 2 false) [frameA, frameB]).2.map totalOf
      = [some 1, some 0] := by
  refine ⟨?_, ?_, by decide⟩
  · unfold trackzone
    cases hE : E (maskedOf st.region im) with
    | error e => rfl
    | ok dets => simp [Except.map, trackzoneOk_total]
  · unfold trackzone
    rw [h]
    cases hE : E (maskedOf st.region im) with
    | error e => rfl
    | ok dets => simp [Except.map, trackzoneOk_total]

/-- C9 (witness): concrete instantiation — one detection on the first frame
gives `total_tracks = 1`. -/
theorem C9_witness :
    (trackzone extrSeven (tzInit none 2 false) frameA).map (fun p => p.1.total_tracks)
      = .ok 1 := by
  have h := (C9_per_frame_count extrSeven (tzInit none 2 false) (tzInit none 2 false)
    frameA rfl).1
  rw [h]
  rfl

/-- C10: an empty point sequence is falsy in Python, so `__init__` treats it
exactly like an absent region: construction succeeds and the region is the
convex hull of the default rectangle (which is that rectangle itself). -/
theorem C10_empty_region_default (lw : Nat) (vb : Bool) :
    tzInit (some []) lw vb = tzInit none lw vb
    ∧ (tzInit (some []) lw vb).region = cv2.convexHull defaultRegion
    ∧ (tzInit (some []) lw vb).region = defaultRegion := by
  refine ⟨rfl, rfl, ?_⟩
  show cv2.convexHull (regionOrDefault (some [])) = defaultRegion
  decide

/-- C8: the region built at construction is the convex hull of the supplied
points (of the default rectangle when none are supplied — concretely the four
corners themselves), and no sequence of `trackzone` calls changes it. -/
theorem C8_region_hull (regionArg : Option (List Pt)) (lw : Nat) (vb : Bool)
    (pts : List Pt) (hne : pts ≠ []) (E : Extractor) (frames : List Img) :
    (tzInit regionArg lw vb).region = cv2.convexHull (regionOrDefault regionArg)
    ∧ (tzInit (some pts) lw vb).region = cv2.convexHull pts
    ∧ (tzInit none lw vb).region = defaultRegion
    ∧ (runSeq E (tzInit regionArg lw vb) frames).1.region
        = (tzInit regionArg lw vb).region := by
  refine ⟨rfl, ?_, ?_, runSeq_region E _ frames⟩
  · cases pts with
    | nil => exact absurd rfl hne
    | cons p ps => rfl
  · show cv2.convexHull (regionOrDefault none) = defaultRegion
    decide

/-- C8 (witness): concrete instantiation — a supplied two-point list is
hulled as given, and after one processed frame the default region is still
the default rectangle. -/
theorem C8_witness :
    (tzInit (some twoPtRegion) 2 false).region = cv2.convexHull twoPtRegion
    ∧ (runSeq extrNone (tzInit none 2 false) [frameA]).1.region = defaultRegion := by
  have h1 := C8_region_hull (some twoPtRegion) 2 false twoPtRegion (by decide) extrNone [frameA]
  have h2 := C8_region_hull none 2 false twoPtRegion (by decide) extrNone [frameA]
  refine ⟨h1.2.1, ?_⟩
  rw [h2.2.2.2]
  exact h2.2.2.1

/-- C5 (counterexample): constructing with the two-point (fewer than three
distinct points) region does not fail: the controller is built, its region is
that degenerate two-point hull, and a subsequent process call runs normally
and returns a result — no configuration error is signalled. -/
theorem C5_counterexample :
    (tzInit (some twoPtRegion) 2 false).region = twoPtRegion
    ∧ (tzInit (some twoPtRegion) 2 false).region.length = 2
    ∧ totalOf (stepTZ extrNone (tzInit (some twoPtRegion) 2 false) frameA).2 = some 0 := by
  decide

/-- C5 (amended): construction performs no validation of the region: any
supplied point list yields a constructed controller whose region is the hull
of the points (or of the default when the list is falsy), and `trackzone`
operates normally on it — degenerate regions are silently accepted. -/
theorem C5_amended_no_validation (pts : List Pt) (lw : Nat) (vb : Bool) (im : Img)
    (E : Extractor) (dets : List Detection)
    (h : E (maskedOf (tzInit (some pts) lw vb).region im) = .ok dets) :
    (tzInit (some pts) lw vb).region = cv2.convexHull (regionOrDefault (some pts))
    ∧ totalOf (stepTZ E (tzInit (some pts) lw vb) im).2 = some dets.length := by
  refine ⟨rfl, ?_⟩
  rw [stepTZ_total, h]
  rfl

/-- C5 (witness): concrete instantiation — the degenerate two-point
controller processes a frame and returns count 0. -/
theorem C5_witness :
    totalOf (stepTZ extrNone (tzInit (some twoPtRegion) 2 false) frameA).2 = some 0 :=
  (C5_amended_no_validation twoPtRegion 2 false frameA extrNone [] rfl).2

/-- C6: when the extractor raises on the masked frame, the `trackzone` call
fails with exactly that error (no retry, no fallback result), and the live
object's state after the failed call is exactly the state before it — the
stored tracking fields are not partially updated. -/
theorem C6_extractor_error (E : Extractor) (st : TZState) (im : Img) (e : Unit)
    (h : E (maskedOf st.region im) = .error e) :
    trackzone E st im = .error e ∧ stepTZ E st im = (st, .error e) := by
  constructor
  · unfold trackzone
    rw [h]
    rfl
  · unfold stepTZ trackzone
    rw [h]
    rfl

/-- C6 (witness): concrete instantiation with an always-raising extractor. -/
theorem C6_witness :
    trackzone extrFail (tzInit none 2 false) frameA = .error ()
    ∧ stepTZ extrFail (tzInit none 2 false) frameA = (tzInit none 2 false, .error ()) :=
  C6_extractor_error extrFail (tzInit none 2 false) frameA () rfl

/-- C7: when the extractor returns an empty detection list, the call still
returns a result whose `total_tracks` is 0 (whatever the controller's
history), whose annotated frame is the input with only the region outline
drawn (no box label is drawn), and whose stored id list is empty; off the
outline the annotated frame agrees with the input pixel for pixel. -/
theorem C7_empty_detections (E : Extractor) (st : TZState) (im : Img)
    (h : E (maskedOf st.region im) = .ok []) :
    (trackzone E st im).map (fun p => p.1.total_tracks) = .ok 0
    ∧ (trackzone E st im).map (fun p => p.1.plot_im.data)
        = .ok (cv2.polylines im st.region 255).data
    ∧ (trackzone E st im).map (fun p => p.2.track_ids) = .ok []
    ∧ ∀ y x c : Nat, onOutline st.region ⟨(x : Int), (y : Int)⟩ = false →
        (cv2.polylines im st.region 255).data y x c = im.data y x c := by
  refine ⟨?_, ?_, ?_, ?_⟩
  · unfold trackzone
    rw [h]
    rfl
  · unfold trackzone
    rw [h]
    rfl
  · unfold trackzone
    rw [h]
    rfl
  · intro y x c hout
    simp [cv2.polylines, hout]

/-- C7 (witness): concrete instantiation — a no-detection extractor on a
fresh controller returns count 0. -/
theorem C7_witness :
    (trackzone extrNone (tzInit none 2 false) frameA).map (fun p => p.1.total_tracks)
      = .ok 0 :=
  (C7_empty_detections extrNone (tzInit none 2 false) frameA rfl).1

/-- C4 (counterexample): the caller's frame is mutated by a `trackzone` call:
on an all-1 1280×720 frame with the default region, the pixel at (150, 150)
— a point of the region outline — holds 255 after the call instead of its
original value 1, because `plot_im = im0` aliases the caller's array and the
outline is drawn on it in place. -/
theorem C4_counterexample :
    (callerFrameAfter extrNone (tzInit none 2 false) frameA).data 150 150 0 = 255
    ∧ frameA.data 150 150 0 = 1
    ∧ (callerFrameAfter extrNone (tzInit none 2 false) frameA).data 150 150 0
        ≠ frameA.data 150 150 0 := by
  decide

/-- C4 (amended): `trackzone` does mutate the caller's frame, but only
through annotation: after a successful call the caller's buffer holds 255 on
the region outline and — away from the outline and from every drawn label
pixel — its original values; the masking step itself writes only to fresh
buffers and contributes no change. -/
theorem C4_amended_caller_frame (E : Extractor) (st : TZState) (im0 : Img)
    (dets : List Detection) (h : E (maskedOf st.region im0) = .ok dets) :
    ∀ y x c : Nat,
      (∀ d ∈ dets, ¬((x : Int) = d.box.x1 ∧ (y : Int) = d.box.y1)) →
      (callerFrameAfter E st im0).data y x c =
        if onOutline st.region ⟨(x : Int), (y : Int)⟩ then 255 else im0.data y x c := by
  intro y x c hd
  unfold callerFrameAfter trackzone
  rw [h]
  show ((trackzoneOk st im0 dets).1.plot_im).data y x c = _
  rw [trackzoneOk_plot, foldl_boxLabel_preserve]
  · rfl
  · intro t ht hcon
    have hmem : t.1 ∈ dets.map (fun d => d.box) := (List.of_mem_zip ht).1
    obtain ⟨d, hdmem, hdb⟩ := List.mem_map.1 hmem
    rw [← hdb] at hcon
    exact hd d hdmem hcon

/-- C4 (witness): concrete instantiation — a pixel off the outline (and with
no label drawn) keeps its original value in the caller's buffer. -/
theorem C4_witness :
    (callerFrameAfter extrNone (tzInit none 2 false) frameA).data 300 300 0
      = frameA.data 300 300 0 := by
  have h := C4_amended_caller_frame extrNone (tzInit none 2 false) frameA [] rfl
    300 300 0 (by simp)
  rw [h]
  decide
